import Mathlib

set_option autoImplicit false

/-! Shallow embedding of the deno_links repository (src/blog.tsx): the
middleware chain executor (composeMiddlewares), the trailing-slash
normalizer (createBlogHandler), the redirects and ga middlewares, and the
inner (terminal) handler. External collaborators (the html renderer, the
static file server, websocket upgrades) are treated as opaque parameters,
as the spec scopes them out. -/

/-- A thrown JS error, modelled as its message string (the code only ever
inspects err.message). -/
abbrev Err := String

/-- An HTTP Response: status, headers (name/value pairs) and body
(null body modelled as the empty string). -/
structure Resp where
  status : Nat
  headers : List (String × String)
  body : String
deriving DecidableEq

/-- A parsed URL, as produced by JS new URL(req.url): scheme, host
(including any port), pathname, and the query search string
(including its leading question mark, or empty). -/
structure Url where
  scheme : String
  host : String
  pathname : String
  search : String
deriving DecidableEq

/-- JS URL.origin: scheme plus host. -/
def Url.origin (u : Url) : String := u.scheme ++ ("://") ++ u.host

/-- JS URL.href: the full serialized URL. -/
def Url.href (u : Url) : String := u.origin ++ u.pathname ++ u.search

/-- An HTTP Request; the code only reads req.url, which we keep in parsed
form. -/
structure Request where
  url : Url
deriving DecidableEq

/-- One network address of Deno ConnInfo. -/
structure NetAddr where
  hostname : String
  port : Nat
deriving DecidableEq

/-- Deno ConnInfo: the per-request connection metadata. -/
structure ConnInfo where
  localAddr : NetAddr
  remoteAddr : NetAddr
deriving DecidableEq

/-- Response.redirect(href, status): a response with the given status and a
location header. -/
def responseRedirect (href : String) (status : Nat) : Resp :=
  { status := status, headers := [(("location"), href)], body := ("") }

/-- The 500 response built by the ga and redirects middlewares from a caught
downstream error (new Response with the interpolated message). -/
def internalServerError (e : Err) : Resp :=
  { status := 500, headers := [], body := ("Internal server error: ") ++ e }

/-- The interaction of one queue step (a middleware applied to the request
and context, or the inner handler) with the shared ctx.next continuation:
it either returns a response, throws, or calls ctx.next() and continues as
a function of the settled result of the rest of the chain. -/
inductive MwTree where
  | respond (r : Resp)
  | throwE (e : Err)
  | callNext (k : Except Err Resp → MwTree)

/-- The error raised when ctx.next() pops an exhausted queue: in the source,
handlers.shift()! yields undefined and invoking it throws.  No claim
exercises this branch (the inner handler never calls next, and it is always
the last queued step). -/
def emptyQueueErr : Err := "next called on exhausted handler queue"

/-- The shared-queue machine of composeMiddlewares: run one step against the
queue of pending steps.  ctx.next() = pop and run the front of the queue
(handlers.shift() then invoke).  Returns the settled result together with
the remaining queue; the attached bound (the queue never grows) justifies
termination. -/
def runTree : MwTree → (q : List MwTree) →
    { p : Except Err Resp × List MwTree // p.2.length ≤ q.length }
  | MwTree.respond r, q => ⟨(Except.ok r, q), Nat.le_refl _⟩
  | MwTree.throwE e, q => ⟨(Except.error e, q), Nat.le_refl _⟩
  | MwTree.callNext _, [] => ⟨(Except.error emptyQueueErr, []), Nat.le_refl _⟩
  | MwTree.callNext k, s :: q =>
      let r1 := runTree s q
      let r2 := runTree (k r1.val.1) r1.val.2
      ⟨r2.val, Nat.le_trans (Nat.le_trans r2.property r1.property) (Nat.le_succ _)⟩
termination_by _ q => q.length
decreasing_by
  · exact Nat.lt_succ_of_le (Nat.le_refl _)
  · exact Nat.lt_succ_of_le r1.property

theorem runTree_respond (r : Resp) (q : List MwTree) :
    (runTree (MwTree.respond r) q).val = (Except.ok r, q) := by
  rw [runTree]

theorem runTree_throwE (e : Err) (q : List MwTree) :
    (runTree (MwTree.throwE e) q).val = (Except.error e, q) := by
  rw [runTree]

theorem runTree_callNext_nil (k : Except Err Resp → MwTree) :
    (runTree (MwTree.callNext k) []).val = (Except.error emptyQueueErr, []) := by
  rw [runTree]

theorem runTree_callNext_cons (k : Except Err Resp → MwTree) (s : MwTree)
    (q : List MwTree) :
    (runTree (MwTree.callNext k) (s :: q)).val =
      (runTree (k (runTree s q).val.1) (runTree s q).val.2).val := by
  rw [runTree]

/-- The og image setting: either a bare url string or an object with url and
twitter card kind (types.d.ts BlogSettings.ogImage). -/
inductive OgImageCfg where
  | str (s : String)
  | obj (url : String) (twitterCard : String)
deriving DecidableEq

/-- The favicon setting: either a url string or an object with optional
light and dark variants (types.d.ts BlogSettings.favicon). -/
inductive FaviconCfg where
  | str (s : String)
  | obj (light : Option String) (dark : Option String)
deriving DecidableEq

/-- The blog settings read by the inner handler and the middlewares; the
middleware list itself lives in BlogState (splitting it off breaks the
type-level cycle; no middleware in this repository reads ctx.state's
middleware list). -/
structure BlogSettingsBase where
  title : Option String
  description : Option String
  lang : Option String
  style : Option String
  cover : Option String
  canonicalUrl : Option String
  ogImage : Option OgImageCfg
  theme : Option String
  favicon : Option FaviconCfg
deriving DecidableEq

/-- A configured middleware: a function of the request and of the context
statics (connInfo, state); its calls to ctx.next are the returned tree. -/
structure Middleware where
  run : Request → ConnInfo → BlogSettingsBase → MwTree

/-- BlogState: the settings plus the optional configured middleware list
(types.d.ts: BlogState extends BlogSettings). -/
structure BlogState extends BlogSettingsBase where
  middlewares : Option (List Middleware)

/-- The last two lines of composeMiddlewares: shift the front step off the
handlers queue and invoke it (the queue built there is never empty, since
the inner handler is always pushed). -/
def runQueue : List MwTree → Except Err Resp
  | [] => Except.error emptyQueueErr
  | s :: rest => (runTree s rest).val.1

/-- composeMiddlewares (src/blog.tsx): reverse the configured middleware
list (slice().reverse()), push one step per middleware into the shared
handlers queue, push the inner handler last, then shift and invoke the
front step; ctx.next() shifts and invokes subsequent steps. -/
def composeMiddlewares (state : BlogState) (req : Request) (connInfo : ConnInfo)
    (inner : Request → ConnInfo → BlogSettingsBase → MwTree) : Except Err Resp :=
  let mws := state.middlewares.map List.reverse
  let mwSteps : List MwTree :=
    match mws with
    | none => []
    | some l => l.map (fun mw => mw.run req connInfo state.toBlogSettingsBase)
  runQueue (mwSteps ++ [inner req connInfo state.toBlogSettingsBase])

/-- A step that interacts with nothing: it settles immediately with the
given result (respond on ok, throw on error). -/
def pureTree : Except Err Resp → MwTree
  | Except.ok r => MwTree.respond r
  | Except.error e => MwTree.throwE e

theorem runTree_pureTree (res : Except Err Resp) (q : List MwTree) :
    (runTree (pureTree res) q).val = (res, q) := by
  cases res with
  | ok r => simp [pureTree, runTree_respond]
  | error e => simp [pureTree, runTree_throwE]

/-- A contract-conforming middleware (spec section 4.2: each middleware
either returns its own response without calling next, or delegates exactly
once and computes its response from the settled downstream result). -/
inductive SimpleMw where
  | short (r : Resp)
  | delegate (post : Except Err Resp → Except Err Resp)

/-- Whether a contract-conforming middleware delegates (calls next). -/
def SimpleMw.isDelegate : SimpleMw → Prop
  | SimpleMw.short _ => False
  | SimpleMw.delegate _ => True

/-- The step tree of a contract-conforming middleware. -/
def SimpleMw.toTree : SimpleMw → MwTree
  | SimpleMw.short r => MwTree.respond r
  | SimpleMw.delegate post => MwTree.callNext (fun res => pureTree (post res))

/-- Package a contract-conforming middleware as a configured middleware
(it ignores the request and context statics). -/
def SimpleMw.toMw (m : SimpleMw) : Middleware :=
  { run := fun _ _ _ => m.toTree }

/-- Reference chain semantics over a middleware list in execution order:
the head runs first; a short-circuiting middleware ends the chain with its
own response; a delegating middleware applies its post-processing to the
result of the remainder; the empty chain settles with the inner handler's
result. -/
def chainEval : List SimpleMw → Except Err Resp → Except Err Resp
  | [], res => res
  | SimpleMw.short r :: _, _ => Except.ok r
  | SimpleMw.delegate post :: rest, res => post (chainEval rest res)

/-- Running a contract-conforming step against the queue of the remaining
contract-conforming steps followed by a settled inner step agrees with the
reference chain semantics. -/
theorem runTree_toTree_chainEval (rl : List SimpleMw) (m : SimpleMw)
    (res : Except Err Resp) :
    (runTree m.toTree (rl.map SimpleMw.toTree ++ [pureTree res])).val.1 =
      chainEval (m :: rl) res := by
  induction rl generalizing m with
  | nil =>
    cases m with
    | short r => simp [SimpleMw.toTree, runTree_respond, chainEval]
    | delegate post =>
      simp only [SimpleMw.toTree, List.map_nil, List.nil_append]
      rw [runTree_callNext_cons]
      simp [runTree_pureTree, chainEval]
  | cons m2 rl2 ih =>
    cases m with
    | short r => simp [SimpleMw.toTree, runTree_respond, chainEval]
    | delegate post =>
      rw [show (SimpleMw.delegate post).toTree
            = MwTree.callNext (fun r2 => pureTree (post r2)) from rfl]
      simp only [List.map_cons, List.cons_append]
      rw [runTree_callNext_cons]
      rw [ih m2]
      simp [runTree_pureTree, chainEval]

/-- The executor applied to a configured list of contract-conforming
middlewares and a settled inner step computes the reference chain
semantics over the REVERSED configured list: the last-configured
middleware is invoked first. -/
theorem composeMiddlewares_simple (base : BlogSettingsBase) (l : List SimpleMw)
    (req : Request) (c : ConnInfo)
    (inner : Request → ConnInfo → BlogSettingsBase → MwTree)
    (res : Except Err Resp)
    (hinner : inner req c base = pureTree res) :
    composeMiddlewares
        { toBlogSettingsBase := base, middlewares := some (l.map SimpleMw.toMw) }
        req c inner
      = chainEval l.reverse res := by
  have hsteps : List.map (fun mw => Middleware.run mw req c base)
      ((List.map SimpleMw.toMw l).reverse) = List.map SimpleMw.toTree l.reverse := by
    simp [SimpleMw.toMw, List.map_reverse, List.map_map, Function.comp_def]
  have h0 : composeMiddlewares
      { toBlogSettingsBase := base, middlewares := some (l.map SimpleMw.toMw) }
      req c inner
      = runQueue (List.map (fun mw => Middleware.run mw req c base)
          ((List.map SimpleMw.toMw l).reverse) ++ [inner req c base]) := rfl
  rw [h0, hsteps, hinner]
  cases hrev : l.reverse with
  | nil => simp [runQueue, runTree_pureTree, chainEval]
  | cons m rl =>
    simp only [List.map_cons, List.cons_append, runQueue]
    exact runTree_toTree_chainEval rl m res

/-- JS truthiness of an optional string: undefined and the empty string are
falsy, every other string is truthy. -/
def jsTruthyOpt : Option String → Bool
  | none => false
  | some s => !s.isEmpty

/-- JS String.prototype.endsWith, on the character list (Lean's builtin
walks byte positions and does not reduce in the kernel). -/
def strEndsWith (s suff : String) : Bool := List.isSuffixOf suff.data s.data

/-- JS String.prototype.startsWith, on the character list. -/
def strStartsWith (s p0 : String) : Bool := List.isPrefixOf p0.data s.data

/-- A link tag pushed into HtmlOptions.links (href plus the optional rel,
type and media attributes used by the handler). -/
structure LinkAttrs where
  href : String
  rel : Option String
  atype : Option String
  media : Option String
deriving DecidableEq

/-- The meta tags passed to the html renderer by the index branch of the
handler. -/
structure MetaTags where
  themeColor : Option String
  description : Option String
  ogTitle : Option String
  ogDescription : Option String
  ogImage : Option String
  twitterTitle : Option String
  twitterDescription : Option String
  twitterImage : Option String
  twitterCard : Option String
deriving DecidableEq

/-- The argument record of the html renderer call made by the handler's
index branch (the Index body component is recorded by the state it
receives). -/
structure HtmlCallOptions where
  lang : String
  scripts : List String
  links : List LinkAttrs
  title : String
  metaTags : MetaTags
  styles : List String
  bodyIndexState : BlogSettingsBase
deriving DecidableEq

/-- handler: canonicalUrl = blogState.canonicalUrl || new URL(req.url).origin
(JS or-else: an absent OR empty configured value falls back to the request
origin). -/
def canonicalUrlOf (st : BlogSettingsBase) (req : Request) : String :=
  match st.canonicalUrl with
  | some s => if s.isEmpty then req.url.origin else s
  | none => req.url.origin

/-- handler: ogImage = typeof blogState.ogImage !== "string"
? blogState.ogImage?.url : blogState.ogImage. -/
def ogImageOf : Option OgImageCfg → Option String
  | some (OgImageCfg.str s) => some s
  | some (OgImageCfg.obj url _) => some url
  | none => none

/-- handler: twitterCard = typeof blogState.ogImage !== "string"
? blogState.ogImage?.twitterCard : "summary_large_image". -/
def twitterCardOf : Option OgImageCfg → Option String
  | some (OgImageCfg.str _) => some ("summary_large_image")
  | some (OgImageCfg.obj _ tc) => some tc
  | none => none

/-- handler: the favicon link tags pushed into sharedHtmlOptions.links
(a string favicon is pushed unconditionally; object variants are pushed
only when the light or dark entry is truthy). -/
def faviconLinks (st : BlogSettingsBase) : List LinkAttrs :=
  match st.favicon with
  | some (FaviconCfg.str s) =>
      [{ href := s, rel := some ("icon"), atype := some ("image/x-icon"),
         media := none }]
  | some (FaviconCfg.obj light dark) =>
      (match light with
       | some lt =>
           if lt.isEmpty then [] else
             [{ href := lt, rel := some ("icon"), atype := some ("image/x-icon"),
                media := some ("(prefers-color-scheme:light)") }]
       | none => []) ++
      (match dark with
       | some dk =>
           if dk.isEmpty then [] else
             [{ href := dk, rel := some ("icon"), atype := some ("image/x-icon"),
                media := some ("(prefers-color-scheme:dark)") }]
       | none => [])
  | none => []

/-- The html(...) argument record built by the handler's index branch:
sharedHtmlOptions (lang, optional hmr script, canonical link, favicon
links) plus title, meta tags, styles and the Index body. -/
def indexHtmlOptions (isDev : Bool) (req : Request) (st : BlogSettingsBase) :
    HtmlCallOptions :=
  let canonicalUrl := canonicalUrlOf st req
  let ogImage := ogImageOf st.ogImage
  let twitterCard := twitterCardOf st.ogImage
  { lang := st.lang.getD ("en")
  , scripts := if isDev then [("/hmr.js")] else []
  , links := { href := canonicalUrl ++ req.url.pathname, rel := some ("canonical"),
               atype := none, media := none } :: faviconLinks st
  , title := st.title.getD ("My Blog")
  , metaTags :=
    { themeColor := if st.theme = some ("dark") then some ("#000") else none
    , description := st.description
    , ogTitle := st.title
    , ogDescription := st.description
    , ogImage := match ogImage with | some s => some s | none => st.cover
    , twitterTitle := st.title
    , twitterDescription := st.description
    , twitterImage := match ogImage with | some s => some s | none => st.cover
    , twitterCard :=
        match ogImage with
        | some s => if s.isEmpty then none else twitterCard
        | none => none
    }
  , styles :=
      match st.style with
      | some s => if s.isEmpty then [] else [s]
      | none => []
  , bodyIndexState := st }

/-- What the inner handler does with a request: delegate to the external
html renderer (index page), delegate to the external static file server
(serveDir), or serve the dev-mode hot-reload client or websocket
upgrade. -/
inductive InnerAction where
  | renderIndex (opts : HtmlCallOptions)
  | serveStatic (req : Request)
  | hmrClientScript
  | hmrUpgrade
deriving DecidableEq

/-- handler (src/blog.tsx): in dev mode serve the hot-reload client and
websocket endpoints; otherwise render the index page on the root path and
delegate every other path to serveDir.  It never calls ctx.next. -/
def handler (isDev : Bool) (req : Request) (st : BlogSettingsBase) :
    InnerAction :=
  let pathname := req.url.pathname
  if isDev = true ∧ pathname = ("/hmr.js") then InnerAction.hmrClientScript
  else if isDev = true ∧ pathname = ("/hmr") then InnerAction.hmrUpgrade
  else if pathname = ("/") then
    InnerAction.renderIndex (indexHtmlOptions isDev req st)
  else InnerAction.serveStatic req

/-- The response of the inner handler, given the concrete responses of the
external collaborators. -/
def innerResponse (renderResp : HtmlCallOptions → Resp) (serveResp : Request → Resp)
    (hmrClientResp hmrUpgradeResp : Resp) (isDev : Bool) (req : Request)
    (st : BlogSettingsBase) : Resp :=
  match handler isDev req st with
  | InnerAction.renderIndex opts => renderResp opts
  | InnerAction.serveStatic r => serveResp r
  | InnerAction.hmrClientScript => hmrClientResp
  | InnerAction.hmrUpgrade => hmrUpgradeResp

/-- The inner handler as a queue step: it responds immediately and never
calls ctx.next. -/
def handlerTree (renderResp : HtmlCallOptions → Resp) (serveResp : Request → Resp)
    (hmrClientResp hmrUpgradeResp : Resp) (isDev : Bool) :
    Request → ConnInfo → BlogSettingsBase → MwTree :=
  fun req _ st =>
    MwTree.respond
      (innerResponse renderResp serveResp hmrClientResp hmrUpgradeResp isDev req st)

/-- createBlogHandler (src/blog.tsx): redirect requests whose path ends with
a trailing slash (and is longer than one character) to the slash-stripped
url with status 307; hand every other request to the middleware chain with
the module handler as the inner step. -/
def createBlogHandler (renderResp : HtmlCallOptions → Resp)
    (serveResp : Request → Resp) (hmrClientResp hmrUpgradeResp : Resp)
    (isDev : Bool) (state : BlogState) (req : Request) (connInfo : ConnInfo) :
    Except Err Resp :=
  let url := req.url
  if 1 < url.pathname.length ∧ strEndsWith url.pathname ("/") = true then
    Except.ok (responseRedirect
      (Url.href { url with pathname := url.pathname.dropRight 1 }) 307)
  else
    composeMiddlewares state req connInfo
      (handlerTree renderResp serveResp hmrClientResp hmrUpgradeResp isDev)

/-- ga (src/blog.tsx): the returned middleware awaits ctx.next(), converts a
rejection into a 500 response carrying the error message, and reports to
the analytics backend (a side effect outside this model) before returning
the response. -/
def gaMiddlewareFn : Request → ConnInfo → BlogSettingsBase → MwTree :=
  fun _ _ _ =>
    MwTree.callNext (fun res =>
      match res with
      | Except.ok r => MwTree.respond r
      | Except.error e => MwTree.respond (internalServerError e))

/-- ga (src/blog.tsx): throws at construction time when the key is empty,
otherwise returns the reporting middleware. -/
def ga (gaKey : String) : Except Err Middleware :=
  if gaKey.length = 0 then Except.error ("GA key cannot be empty.")
  else Except.ok { run := gaMiddlewareFn }

/-- redirects (src/blog.tsx), fall-through branch: return await ctx.next(),
converting a rejection into a 500 response carrying the error message. -/
def redirectsFallback : Except Err Resp → MwTree
  | Except.ok r => MwTree.respond r
  | Except.error e => MwTree.respond (internalServerError e)

/-- redirects (src/blog.tsx), normalization of a matched target: prefix it
with a slash unless it already starts with a slash or starts with
"http". -/
def normalizeTarget (t0 : String) : String :=
  if strStartsWith t0 ("/") = false ∧ strStartsWith t0 ("http") = false then
    ("/") ++ t0
  else t0

/-- redirects (src/blog.tsx): look the pathname up in the redirect map, then
(if that was falsy) the pathname without its leading slash; on a truthy
target, respond 307 with a location equal to the normalized target;
otherwise delegate via ctx.next(). -/
def redirects (redirectMap : String → Option String) : Middleware :=
  { run := fun req _ _ =>
      let pathname := req.url.pathname
      let m1 := redirectMap pathname
      let maybeRedirect :=
        if jsTruthyOpt m1 = false then redirectMap (pathname.drop 1) else m1
      if jsTruthyOpt maybeRedirect = true then
        MwTree.respond
          { status := 307
          , headers := [(("location"), normalizeTarget (maybeRedirect.getD ("")))]
          , body := ("") }
      else
        MwTree.callNext redirectsFallback }

/-! Shared concrete fixtures for witnesses and counterexamples. -/

/-- An all-default settings record. -/
def baseD : BlogSettingsBase :=
  { title := none, description := none, lang := none, style := none
  , cover := none, canonicalUrl := none, ogImage := none, theme := none
  , favicon := none }

/-- A request to the given path on a fixed https origin with no query. -/
def reqOf (p : String) : Request :=
  { url := { scheme := ("https"), host := ("blog.example"), pathname := p
           , search := ("") } }

/-- Fixed connection metadata. -/
def connD : ConnInfo :=
  { localAddr := { hostname := ("0.0.0.0"), port := 8000 }
  , remoteAddr := { hostname := ("0.0.0.0"), port := 8001 } }

/-- Distinguishable concrete responses. -/
def respA : Resp := { status := 201, headers := [], body := ("A") }

/-- Distinguishable concrete responses. -/
def respB : Resp := { status := 202, headers := [], body := ("B") }

/-- A concrete inner-handler response. -/
def respInnerD : Resp := { status := 200, headers := [], body := ("inner") }

/-- chainEval over an all-delegating prefix followed by a short-circuiting
middleware: the short's response originates there and is post-processed by
the prefix only; the remainder of the chain and the inner result are never
consulted (they do not occur in the right-hand side). -/
theorem chainEval_append_short (pre : List SimpleMw) (r : Resp)
    (rest : List SimpleMw) (res : Except Err Resp)
    (hpre : ∀ m ∈ pre, m.isDelegate) :
    chainEval (pre ++ SimpleMw.short r :: rest) res
      = chainEval pre (Except.ok r) := by
  induction pre with
  | nil => simp [chainEval]
  | cons m pre2 ih =>
    cases m with
    | short r2 => exact (hpre _ (List.mem_cons_self _ _)).elim
    | delegate post =>
      simp only [List.cons_append, chainEval]
      exact congrArg post (ih (fun m2 hm => hpre m2 (List.mem_cons_of_mem _ hm)))

/-- C1 counterexample: with the configured middleware list
[short respA, short respB], the claim as stated predicts that the
first-configured middleware runs first and wraps all others, so the
response would be respA (it short-circuits at once); the executor instead
invokes the LAST-configured middleware first and returns respB. -/
theorem c1_counterexample :
    composeMiddlewares
        { toBlogSettingsBase := baseD
        , middlewares :=
            some ([SimpleMw.short respA, SimpleMw.short respB].map SimpleMw.toMw) }
        (reqOf ("/")) connD (fun _ _ _ => pureTree (Except.ok respInnerD))
      = Except.ok respB
    ∧ respB ≠ respA := by
  constructor
  · rw [composeMiddlewares_simple baseD ([SimpleMw.short respA, SimpleMw.short respB])
        (reqOf ("/")) connD _ (Except.ok respInnerD) rfl]
    rfl
  · decide

/-- C1 (amended): the executor runs middlewares in REVERSE configuration
order: composing contract-conforming middlewares with a settled inner step
equals the reference chain semantics over the reversed configured list, so
the last-configured middleware runs first and wraps all others, and each
delegating middleware's next() resolves to the response of the remainder
of the reversed list (the earlier-configured middlewares) followed by the
inner handler, as the chainEval unfolding equations of the second and
third conjuncts state. -/
theorem c1_middlewares_run_in_reverse_config_order
    (base : BlogSettingsBase) (l : List SimpleMw) (req : Request) (c : ConnInfo)
    (inner : Request → ConnInfo → BlogSettingsBase → MwTree)
    (res : Except Err Resp) (hinner : inner req c base = pureTree res) :
    composeMiddlewares
        { toBlogSettingsBase := base, middlewares := some (l.map SimpleMw.toMw) }
        req c inner
      = chainEval l.reverse res
    ∧ (∀ post rl x, chainEval (SimpleMw.delegate post :: rl) x = post (chainEval rl x))
    ∧ (∀ r rl x, chainEval (SimpleMw.short r :: rl) x = Except.ok r) := by
  refine ⟨composeMiddlewares_simple base l req c inner res hinner, ?_, ?_⟩
  · intro post rl x
    rfl
  · intro r rl x
    rfl

/-- C1 witness: the amended theorem applied at a concrete single-delegate
configuration, evaluated. -/
theorem c1_middlewares_run_in_reverse_config_order_witness :
    composeMiddlewares
        { toBlogSettingsBase := baseD
        , middlewares := some ([SimpleMw.delegate id].map SimpleMw.toMw) }
        (reqOf ("/x")) connD (fun _ _ _ => pureTree (Except.ok respInnerD))
      = Except.ok respInnerD :=
  ((c1_middlewares_run_in_reverse_config_order baseD ([SimpleMw.delegate id])
      (reqOf ("/x")) connD _ (Except.ok respInnerD) rfl).1).trans rfl

/-- Invoking the inner handler directly with the request and the
constructed context (whose next() faces an empty pending queue, exactly as
in the executor's empty-list run). -/
def invokeInnerDirectly (inner : Request → ConnInfo → BlogSettingsBase → MwTree)
    (req : Request) (c : ConnInfo) (base : BlogSettingsBase) : Except Err Resp :=
  (runTree (inner req c base) []).val.1

/-- C4: with an absent or empty configured middleware list, the executor's
dispatch is identical to invoking the inner handler directly with the
request and the constructed context. -/
theorem c4_empty_middleware_list_is_direct_inner_call (state : BlogState)
    (req : Request) (c : ConnInfo)
    (inner : Request → ConnInfo → BlogSettingsBase → MwTree)
    (h : state.middlewares = none ∨ state.middlewares = some []) :
    composeMiddlewares state req c inner
      = invokeInnerDirectly inner req c state.toBlogSettingsBase := by
  rcases h with h | h <;>
    simp [composeMiddlewares, h, runQueue, invokeInnerDirectly]

/-- C4 witness: the theorem applied to a concrete absent middleware
configuration. -/
theorem c4_empty_middleware_list_is_direct_inner_call_witness :
    composeMiddlewares { toBlogSettingsBase := baseD, middlewares := none }
        (reqOf ("/")) connD (fun _ _ _ => pureTree (Except.ok respInnerD))
      = invokeInnerDirectly (fun _ _ _ => pureTree (Except.ok respInnerD))
          (reqOf ("/")) connD baseD :=
  c4_empty_middleware_list_is_direct_inner_call _ _ _ _ (Or.inl rfl)

/-- C9: ga with the empty key throws "GA key cannot be empty." at
construction time, before any request is handled (the length check runs in
ga itself, not in the returned middleware); with any non-empty key it
returns the reporting middleware without throwing. -/
theorem c9_ga_empty_key_throws_at_construction :
    ga ("") = Except.error ("GA key cannot be empty.")
    ∧ ∀ k : String, k.length ≠ 0 → ga k = Except.ok { run := gaMiddlewareFn } := by
  constructor
  · rfl
  · intro k hk
    simp [ga, hk]

/-- C9 witness: a concrete non-empty key yields the middleware. -/
theorem c9_ga_empty_key_throws_at_construction_witness :
    ga ("G-123") = Except.ok { run := gaMiddlewareFn } :=
  (c9_ga_empty_key_throws_at_construction).2 ("G-123") (by decide)

/-- A truthy optional string: present and non-empty. -/
theorem jsTruthyOpt_some_of_ne (t : String) (ht : t ≠ ("")) :
    jsTruthyOpt (some t) = true := by
  simp only [jsTruthyOpt, Bool.not_eq_true', Bool.eq_false_iff, Ne, String.isEmpty_iff]
  exact ht

/-- redirects, respond branch via the full-pathname lookup: a truthy target
under the full pathname wins, whatever the trimmed-key lookup would say. -/
theorem redirects_run_full_match (m : String → Option String) (req : Request)
    (c : ConnInfo) (st : BlogSettingsBase) (t : String)
    (h1 : m req.url.pathname = some t) (ht : t ≠ ("")) :
    (redirects m).run req c st
      = MwTree.respond
          { status := 307
          , headers := [(("location"), normalizeTarget t)]
          , body := ("") } := by
  simp only [redirects]
  rw [h1]
  simp [jsTruthyOpt_some_of_ne t ht]

/-- redirects, respond branch via the slash-trimmed lookup, consulted only
when the full-pathname lookup is falsy. -/
theorem redirects_run_trimmed_match (m : String → Option String) (req : Request)
    (c : ConnInfo) (st : BlogSettingsBase) (t : String)
    (h1 : jsTruthyOpt (m req.url.pathname) = false)
    (h2 : m (req.url.pathname.drop 1) = some t) (ht : t ≠ ("")) :
    (redirects m).run req c st
      = MwTree.respond
          { status := 307
          , headers := [(("location"), normalizeTarget t)]
          , body := ("") } := by
  simp only [redirects]
  rw [h1]
  simp [h2, jsTruthyOpt_some_of_ne t ht]

/-- redirects, delegation branch: both lookups falsy. -/
theorem redirects_run_no_match (m : String → Option String) (req : Request)
    (c : ConnInfo) (st : BlogSettingsBase)
    (h1 : jsTruthyOpt (m req.url.pathname) = false)
    (h2 : jsTruthyOpt (m (req.url.pathname.drop 1)) = false) :
    (redirects m).run req c st = MwTree.callNext redirectsFallback := by
  simp only [redirects]
  rw [h1]
  simp [h2]

/-- C2: a request whose path is longer than one character and ends with the
path separator is answered with a 307 redirect to the same URL with the
trailing separator removed — for every configured state, so no middleware
(and no collaborator) is consulted; every other request is handed
unmodified to the middleware chain. -/
theorem c2_trailing_slash_normalization (renderResp : HtmlCallOptions → Resp)
    (serveResp : Request → Resp) (hmrC hmrU : Resp) (isDev : Bool)
    (state : BlogState) (req : Request) (c : ConnInfo) :
    (1 < req.url.pathname.length ∧ strEndsWith req.url.pathname ("/") = true →
      createBlogHandler renderResp serveResp hmrC hmrU isDev state req c
        = Except.ok (responseRedirect
            (Url.href { req.url with pathname := req.url.pathname.dropRight 1 }) 307))
    ∧ (¬(1 < req.url.pathname.length ∧ strEndsWith req.url.pathname ("/") = true) →
      createBlogHandler renderResp serveResp hmrC hmrU isDev state req c
        = composeMiddlewares state req c
            (handlerTree renderResp serveResp hmrC hmrU isDev)) := by
  constructor
  · intro h
    simp only [createBlogHandler]
    rw [if_pos h]
  · intro h
    simp only [createBlogHandler]
    rw [if_neg h]

/-- C2 witness: a concrete trailing-slash request is redirected (evaluated
to the literal stripped URL), and a concrete plain request reaches the
chain. -/
theorem c2_trailing_slash_normalization_witness :
    createBlogHandler (fun _ => respInnerD) (fun _ => respInnerD) respInnerD respInnerD
        false { toBlogSettingsBase := baseD, middlewares := none } (reqOf ("/about/")) connD
      = Except.ok (responseRedirect ("https://blog.example/about") 307)
    ∧ createBlogHandler (fun _ => respInnerD) (fun _ => respInnerD) respInnerD respInnerD
        false { toBlogSettingsBase := baseD, middlewares := none } (reqOf ("/about")) connD
      = composeMiddlewares { toBlogSettingsBase := baseD, middlewares := none }
          (reqOf ("/about")) connD
          (handlerTree (fun _ => respInnerD) (fun _ => respInnerD) respInnerD respInnerD
            false) := by
  constructor
  · have h := (c2_trailing_slash_normalization (fun _ => respInnerD) (fun _ => respInnerD)
        respInnerD respInnerD false { toBlogSettingsBase := baseD, middlewares := none }
        (reqOf ("/about/")) connD).1 (by decide)
    rw [h]
    rfl
  · exact (c2_trailing_slash_normalization (fun _ => respInnerD) (fun _ => respInnerD)
        respInnerD respInnerD false { toBlogSettingsBase := baseD, middlewares := none }
        (reqOf ("/about")) connD).2 (by decide)

/-- C8: the trailing-slash redirect target is the full absolute URL of the
request — scheme, host (with any port) and query string preserved, only the
trailing separator of the path removed; in particular it is not a bare
path. -/
theorem c8_redirect_target_is_full_url (renderResp : HtmlCallOptions → Resp)
    (serveResp : Request → Resp) (hmrC hmrU : Resp) (isDev : Bool)
    (state : BlogState) (req : Request) (c : ConnInfo)
    (h : 1 < req.url.pathname.length ∧ strEndsWith req.url.pathname ("/") = true) :
    createBlogHandler renderResp serveResp hmrC hmrU isDev state req c
      = Except.ok
          { status := 307
          , headers := [(("location"),
              req.url.scheme ++ ("://") ++ req.url.host
                ++ req.url.pathname.dropRight 1 ++ req.url.search)]
          , body := ("") } := by
  simp only [createBlogHandler]
  rw [if_pos h]
  rfl

/-- C8 witness: a request with an explicit port-free host and a query
string keeps both in the redirect target. -/
theorem c8_redirect_target_is_full_url_witness :
    createBlogHandler (fun _ => respInnerD) (fun _ => respInnerD) respInnerD respInnerD
        false { toBlogSettingsBase := baseD, middlewares := none }
        { url := { scheme := ("https"), host := ("h.test"), pathname := ("/about/")
                 , search := ("?q=1") } } connD
      = Except.ok
          { status := 307
          , headers := [(("location"), ("https://h.test/about?q=1"))]
          , body := ("") } := by
  have h := c8_redirect_target_is_full_url (fun _ => respInnerD) (fun _ => respInnerD)
      respInnerD respInnerD false { toBlogSettingsBase := baseD, middlewares := none }
      { url := { scheme := ("https"), host := ("h.test"), pathname := ("/about/")
               , search := ("?q=1") } } connD (by decide)
  rw [h]
  rfl

/-- C7: exactly one terminal response per request, originated by exactly
one of the trailing-slash normalizer, the first short-circuiting
middleware in execution order, or the inner handler (the three cases are
exhaustive for contract-conforming middlewares, and the embedding returns
a single result by construction).  (a) On a trailing-slash path the
response is the normalizer redirect, for every middleware configuration
and collaborator — neither occurs in the conclusion, so none is consulted.
(b) Otherwise, if the execution-order (reversed) list has a first
short-circuiting middleware, the response is that middleware's own
response post-processed by the delegating middlewares before it, each
applied exactly once to its single downstream result; the later
middlewares and the inner handler do not occur in the conclusion.
(c) Otherwise every middleware delegates exactly once and the inner
handler's response originates the result. -/
theorem c7_exactly_one_terminal_response (renderResp : HtmlCallOptions → Resp)
    (serveResp : Request → Resp) (hmrC hmrU : Resp) (base : BlogSettingsBase)
    (l : List SimpleMw) (req : Request) (c : ConnInfo) :
    (1 < req.url.pathname.length ∧ strEndsWith req.url.pathname ("/") = true →
      createBlogHandler renderResp serveResp hmrC hmrU false
          { toBlogSettingsBase := base, middlewares := some (l.map SimpleMw.toMw) }
          req c
        = Except.ok (responseRedirect
            (Url.href { req.url with pathname := req.url.pathname.dropRight 1 }) 307))
    ∧ (¬(1 < req.url.pathname.length ∧ strEndsWith req.url.pathname ("/") = true) →
        ∀ pre r rest, l.reverse = pre ++ SimpleMw.short r :: rest →
          (∀ m ∈ pre, m.isDelegate) →
          createBlogHandler renderResp serveResp hmrC hmrU false
              { toBlogSettingsBase := base, middlewares := some (l.map SimpleMw.toMw) }
              req c
            = chainEval pre (Except.ok r))
    ∧ (¬(1 < req.url.pathname.length ∧ strEndsWith req.url.pathname ("/") = true) →
        (∀ m ∈ l.reverse, m.isDelegate) →
        createBlogHandler renderResp serveResp hmrC hmrU false
            { toBlogSettingsBase := base, middlewares := some (l.map SimpleMw.toMw) }
            req c
          = chainEval l.reverse
              (Except.ok (innerResponse renderResp serveResp hmrC hmrU false req base))) := by
  refine ⟨?_, ?_, ?_⟩
  · intro h
    simp only [createBlogHandler]
    rw [if_pos h]
  · intro h pre r rest hsplit hpre
    simp only [createBlogHandler]
    rw [if_neg h]
    rw [composeMiddlewares_simple base l req c _
        (Except.ok (innerResponse renderResp serveResp hmrC hmrU false req base)) rfl]
    rw [hsplit]
    exact chainEval_append_short pre r rest _ hpre
  · intro h _hdel
    simp only [createBlogHandler]
    rw [if_neg h]
    exact composeMiddlewares_simple base l req c _
      (Except.ok (innerResponse renderResp serveResp hmrC hmrU false req base)) rfl

/-- C7 witness: a single short-circuiting middleware originates the
response on a plain path. -/
theorem c7_exactly_one_terminal_response_witness :
    createBlogHandler (fun _ => respInnerD) (fun _ => respInnerD) respInnerD respInnerD
        false { toBlogSettingsBase := baseD
              , middlewares := some ([SimpleMw.short respA].map SimpleMw.toMw) }
        (reqOf ("/x")) connD
      = Except.ok respA := by
  have h := (c7_exactly_one_terminal_response (fun _ => respInnerD) (fun _ => respInnerD)
      respInnerD respInnerD baseD ([SimpleMw.short respA]) (reqOf ("/x")) connD).2.1
      (by decide) [] respA [] rfl (fun m hm => absurd hm (List.not_mem_nil m))
  exact h.trans rfl

/-- Modelled from the spec: a target that is "an absolute external URL
starting with a scheme" — a nonempty run of ASCII letters followed by a
colon, the URL-standard scheme shape the spec's words refer to. -/
def specSchemeStart (s : String) : Bool :=
  let cs := s.data
  let letters := cs.takeWhile (fun ch => ch.isAlpha)
  match letters, cs.drop letters.length with
  | [], _ => false
  | _ :: _, ch :: _ => ch == (':')
  | _ :: _, [] => false

/-- The concrete redirect map of the C3 counterexample. -/
def ftpMap : String → Option String :=
  fun p => if p = ("/a") then some ("ftp://example.com") else none

/-- C3 counterexample: the mapped target "ftp://example.com" is an absolute
URL starting with a scheme, so the claim says the location header equals
the target unprefixed; the middleware only leaves targets starting with
"/" or with "http" alone and prefixes every other target with a slash,
producing "/ftp://example.com". -/
theorem c3_counterexample :
    (redirects ftpMap).run (reqOf ("/a")) connD baseD
      = MwTree.respond
          { status := 307
          , headers := [(("location"), ("/ftp://example.com"))]
          , body := ("") }
    ∧ specSchemeStart ("ftp://example.com") = true
    ∧ ("/ftp://example.com") ≠ ("ftp://example.com") := by
  refine ⟨?_, by decide, by decide⟩
  have h := redirects_run_full_match ftpMap (reqOf ("/a")) connD baseD
      ("ftp://example.com") (by decide) (by decide)
  rw [h]
  rfl

/-- C3 (amended): on a truthy match — the full pathname first, else the
slash-trimmed pathname — redirects responds 307 with a location equal to
the target prefixed with a slash unless the target already starts with a
slash or starts with "http" (so absolute URLs with non-http schemes are
prefixed too); with no truthy match it delegates via ctx.next(). -/
theorem c3_redirect_map_behaviour (m : String → Option String) (req : Request)
    (c : ConnInfo) (st : BlogSettingsBase) (t : String) :
    (m req.url.pathname = some t → t ≠ ("") →
      (redirects m).run req c st
        = MwTree.respond
            { status := 307
            , headers := [(("location"), normalizeTarget t)]
            , body := ("") })
    ∧ (jsTruthyOpt (m req.url.pathname) = false →
        m (req.url.pathname.drop 1) = some t → t ≠ ("") →
      (redirects m).run req c st
        = MwTree.respond
            { status := 307
            , headers := [(("location"), normalizeTarget t)]
            , body := ("") })
    ∧ (jsTruthyOpt (m req.url.pathname) = false →
        jsTruthyOpt (m (req.url.pathname.drop 1)) = false →
      (redirects m).run req c st = MwTree.callNext redirectsFallback) :=
  ⟨fun h1 ht => redirects_run_full_match m req c st t h1 ht,
   fun h1 h2 ht => redirects_run_trimmed_match m req c st t h1 h2 ht,
   fun h1 h2 => redirects_run_no_match m req c st h1 h2⟩

/-- C3 witness: the amended theorem applied to the spec's two concrete
scenarios — a bare relative target gains a slash, and an http-absolute
target is left alone — plus delegation on a miss. -/
theorem c3_redirect_map_behaviour_witness :
    (redirects (fun p => if p = ("/a") then some ("b") else none)).run
        (reqOf ("/a")) connD baseD
      = MwTree.respond
          { status := 307, headers := [(("location"), ("/b"))], body := ("") }
    ∧ (redirects (fun p => if p = ("ext") then some ("https://example.com") else none)).run
        (reqOf ("/ext")) connD baseD
      = MwTree.respond
          { status := 307, headers := [(("location"), ("https://example.com"))]
          , body := ("") }
    ∧ (redirects (fun _ => none)).run (reqOf ("/miss")) connD baseD
      = MwTree.callNext redirectsFallback := by
  refine ⟨?_, ?_, ?_⟩
  · have h := (c3_redirect_map_behaviour (fun p => if p = ("/a") then some ("b") else none)
        (reqOf ("/a")) connD baseD ("b")).1 (by decide) (by decide)
    rw [h]
    rfl
  · have h := (c3_redirect_map_behaviour
        (fun p => if p = ("ext") then some ("https://example.com") else none)
        (reqOf ("/ext")) connD baseD ("https://example.com")).2.1
        (by decide) (by decide) (by decide)
    rw [h]
    rfl
  · exact (c3_redirect_map_behaviour (fun _ => none) (reqOf ("/miss")) connD baseD
        ("")).2.2 (by decide) (by decide)

/-- C10: the full-pathname lookup takes precedence whenever it is truthy —
the conclusion does not depend on what the trimmed key maps to; a full
pathname mapped to the empty string is falsy, so the trimmed lookup is
consulted instead, and if that is falsy too the middleware delegates via
ctx.next(). -/
theorem c10_full_pathname_lookup_precedence (m : String → Option String)
    (req : Request) (c : ConnInfo) (st : BlogSettingsBase) (t1 t2 : String) :
    (m req.url.pathname = some t1 → t1 ≠ ("") →
      (redirects m).run req c st
        = MwTree.respond
            { status := 307
            , headers := [(("location"), normalizeTarget t1)]
            , body := ("") })
    ∧ (m req.url.pathname = some ("") →
        m (req.url.pathname.drop 1) = some t2 → t2 ≠ ("") →
      (redirects m).run req c st
        = MwTree.respond
            { status := 307
            , headers := [(("location"), normalizeTarget t2)]
            , body := ("") })
    ∧ (m req.url.pathname = some ("") →
        jsTruthyOpt (m (req.url.pathname.drop 1)) = false →
      (redirects m).run req c st = MwTree.callNext redirectsFallback) := by
  refine ⟨fun h1 ht => redirects_run_full_match m req c st t1 h1 ht, ?_, ?_⟩
  · intro h0 h2 ht
    exact redirects_run_trimmed_match m req c st t2 (by rw [h0]; rfl) h2 ht
  · intro h0 h2
    exact redirects_run_no_match m req c st (by rw [h0]; rfl) h2

/-- C10 witness: with both "/a" (mapped to "full") and "a" (mapped to
"trimmed") present, the full-pathname target wins; with "/e" mapped to the
empty string and no trimmed entry, the middleware delegates. -/
theorem c10_full_pathname_lookup_precedence_witness :
    (redirects (fun p =>
        if p = ("/a") then some ("full")
        else if p = ("a") then some ("trimmed") else none)).run
        (reqOf ("/a")) connD baseD
      = MwTree.respond
          { status := 307, headers := [(("location"), ("/full"))], body := ("") }
    ∧ (redirects (fun p => if p = ("/e") then some ("") else none)).run
        (reqOf ("/e")) connD baseD
      = MwTree.callNext redirectsFallback := by
  constructor
  · have h := (c10_full_pathname_lookup_precedence (fun p =>
        if p = ("/a") then some ("full")
        else if p = ("a") then some ("trimmed") else none)
        (reqOf ("/a")) connD baseD ("full") ("")).1 (by decide) (by decide)
    rw [h]
    rfl
  · exact (c10_full_pathname_lookup_precedence
        (fun p => if p = ("/e") then some ("") else none)
        (reqOf ("/e")) connD baseD ("") ("")).2.2 (by decide) (by decide)

/-- A middleware that returns await ctx.next() with no try/catch: a
downstream rejection passes through it unhandled. -/
def passThroughMw : Middleware := { run := fun _ _ _ => MwTree.callNext pureTree }

/-- An inner step that rejects with the given error. -/
def throwInner (e : Err) : Request → ConnInfo → BlogSettingsBase → MwTree :=
  fun _ _ _ => MwTree.throwE e

/-- C5: (1) when the downstream chain popped by ctx.next() rejects with e,
the ga middleware settles successfully with the 500 response whose body
carries the error message as a suffix; (2) the redirects middleware, on a
pathname it does not match, does the same; (3) the executor itself
installs no catch: with no middleware list, an empty one, or a single
catch-less pass-through middleware, a rejection of the inner handler
propagates out of composeMiddlewares. -/
theorem c5_middleware_local_error_handling (s : MwTree) (q : List MwTree)
    (e : Err) (req : Request) (c : ConnInfo) (st : BlogSettingsBase)
    (m : String → Option String) :
    ((runTree s q).val.1 = Except.error e →
      (runTree (gaMiddlewareFn req c st) (s :: q)).val.1
        = Except.ok (internalServerError e)
      ∧ (internalServerError e).status = 500
      ∧ e.data <:+ (internalServerError e).body.data)
    ∧ (jsTruthyOpt (m req.url.pathname) = false →
        jsTruthyOpt (m (req.url.pathname.drop 1)) = false →
        (runTree s q).val.1 = Except.error e →
      (runTree ((redirects m).run req c st) (s :: q)).val.1
        = Except.ok (internalServerError e))
    ∧ (composeMiddlewares { toBlogSettingsBase := st, middlewares := none }
          req c (throwInner e) = Except.error e
      ∧ composeMiddlewares { toBlogSettingsBase := st, middlewares := some [] }
          req c (throwInner e) = Except.error e
      ∧ composeMiddlewares
          { toBlogSettingsBase := st, middlewares := some [passThroughMw] }
          req c (throwInner e) = Except.error e) := by
  refine ⟨?_, ?_, ?_, ?_, ?_⟩
  · intro hs
    refine ⟨?_, rfl, ⟨("Internal server error: ").data, rfl⟩⟩
    have h2 := runTree_callNext_cons (fun res =>
        match res with
        | Except.ok r => MwTree.respond r
        | Except.error e2 => MwTree.respond (internalServerError e2)) s q
    rw [show gaMiddlewareFn req c st = MwTree.callNext (fun res =>
        match res with
        | Except.ok r => MwTree.respond r
        | Except.error e2 => MwTree.respond (internalServerError e2)) from rfl]
    rw [h2, hs]
    simp [runTree_respond]
  · intro h1 h2 hs
    rw [redirects_run_no_match m req c st h1 h2]
    rw [runTree_callNext_cons redirectsFallback s q, hs]
    simp [redirectsFallback, runTree_respond]
  · simp [composeMiddlewares, runQueue, throwInner, runTree_throwE]
  · simp [composeMiddlewares, runQueue, throwInner, runTree_throwE]
  · have h0 : composeMiddlewares
        { toBlogSettingsBase := st, middlewares := some [passThroughMw] }
        req c (throwInner e)
        = (runTree (MwTree.callNext pureTree) [MwTree.throwE e]).val.1 := rfl
    rw [h0, runTree_callNext_cons pureTree (MwTree.throwE e) [], runTree_throwE]
    simp [pureTree, runTree_throwE]

/-- C5 witness: a rejecting downstream step is converted by ga and by
redirects into the 500 response, while the executor propagates the same
rejection when only a catch-less middleware is configured. -/
theorem c5_middleware_local_error_handling_witness :
    (runTree (gaMiddlewareFn (reqOf ("/x")) connD baseD)
        ([MwTree.throwE ("boom")])).val.1
      = Except.ok (internalServerError ("boom"))
    ∧ (runTree ((redirects (fun _ => none)).run (reqOf ("/x")) connD baseD)
        ([MwTree.throwE ("boom")])).val.1
      = Except.ok (internalServerError ("boom"))
    ∧ composeMiddlewares
        { toBlogSettingsBase := baseD, middlewares := some [passThroughMw] }
        (reqOf ("/x")) connD (throwInner ("boom")) = Except.error ("boom") := by
  have h := c5_middleware_local_error_handling (MwTree.throwE ("boom")) [] ("boom")
      (reqOf ("/x")) connD baseD (fun _ => none)
  exact ⟨(h.1 (by rw [runTree_throwE])).1,
         h.2.1 (by decide) (by decide) (by rw [runTree_throwE]),
         h.2.2.2.2⟩

/-- C6: in production mode (isDev = false), the inner handler renders the
index page through the external html renderer exactly on the root path —
with the canonical URL falling back to the request origin when none is
configured, the open-graph image and theme color derived from the
settings, and the Index body receiving the settings — and delegates every
other path to the external static file server; as a queue step it responds
immediately and never calls ctx.next. -/
theorem c6_inner_handler_dispatch (isDev : Bool) (req : Request)
    (st : BlogSettingsBase) (hdev : isDev = false) :
    (req.url.pathname = ("/") →
      handler isDev req st = InnerAction.renderIndex (indexHtmlOptions isDev req st)
      ∧ (st.canonicalUrl = none →
          (indexHtmlOptions isDev req st).links.head?
            = some { href := req.url.origin ++ req.url.pathname
                   , rel := some ("canonical"), atype := none, media := none })
      ∧ (indexHtmlOptions isDev req st).metaTags.themeColor
          = (if st.theme = some ("dark") then some ("#000") else none)
      ∧ (indexHtmlOptions isDev req st).metaTags.ogImage
          = (match ogImageOf st.ogImage with | some s2 => some s2 | none => st.cover)
      ∧ (indexHtmlOptions isDev req st).bodyIndexState = st)
    ∧ (req.url.pathname ≠ ("/") → handler isDev req st = InnerAction.serveStatic req)
    ∧ (∀ renderResp serveResp hmrC hmrU c2, ∃ r,
        handlerTree renderResp serveResp hmrC hmrU isDev req c2 st
          = MwTree.respond r) := by
  subst hdev
  refine ⟨?_, ?_, ?_⟩
  · intro hroot
    refine ⟨?_, ?_, rfl, rfl, rfl⟩
    · simp [handler, hroot]
    · intro hc
      simp [indexHtmlOptions, canonicalUrlOf, hc, Url.origin]
  · intro hroot
    simp [handler, hroot]
  · intro renderResp serveResp hmrC hmrU c2
    exact ⟨_, rfl⟩

/-- C6 witness: on the fixed origin, a root request renders the index with
the canonical link derived from the request origin, and a non-root request
is served statically. -/
theorem c6_inner_handler_dispatch_witness :
    handler false (reqOf ("/")) baseD
      = InnerAction.renderIndex (indexHtmlOptions false (reqOf ("/")) baseD)
    ∧ (indexHtmlOptions false (reqOf ("/")) baseD).links.head?
      = some { href := ("https://blog.example/"), rel := some ("canonical")
             , atype := none, media := none }
    ∧ handler false (reqOf ("/cat.png")) baseD
      = InnerAction.serveStatic (reqOf ("/cat.png")) := by
  have h1 := c6_inner_handler_dispatch false (reqOf ("/")) baseD rfl
  have h2 := c6_inner_handler_dispatch false (reqOf ("/cat.png")) baseD rfl
  refine ⟨(h1.1 rfl).1, ?_, h2.2.1 (by decide)⟩
  have h3 := (h1.1 rfl).2.1 rfl
  rw [h3]
  rfl
